import Mathlib

/-!
Shallow embedding of the hypothesis-lifecycle engine of the velocity
repository (src/velocity/core), with proofs checking the natural-language
specification against the code.

Modelling conventions:
* Python floats are modelled as rationals; Python strings as Lean strings.
* Python dicts (insertion ordered) are association lists; Python sets are
  duplicate-free lists maintained by guarded insertion.
* Fallible Python code (attribute errors, raised exceptions) is modelled
  with Except and Option.
* For the aliasing behaviour of CognitiveState.fork, a second model with
  an explicit store of evidence-list cells mirrors Python reference
  semantics (see the Ref definitions below).
-/

namespace Velocity

/-- Uncertainty classification, from state.py (UncertaintyLevel enum). -/
inductive UncertaintyLevel where
  | CERTAIN
  | LOW
  | MEDIUM
  | HIGH
  | UNKNOWN
deriving DecidableEq, Repr

/-- Python enum member value, from state.py (CERTAIN = 0 .. UNKNOWN = 4). -/
def UncertaintyLevel.value : UncertaintyLevel → ℕ
  | .CERTAIN => 0
  | .LOW => 1
  | .MEDIUM => 2
  | .HIGH => 3
  | .UNKNOWN => 4

/-- The dynamic type of the CognitiveState.uncertainty attribute.
state.py initialises it with an UncertaintyLevel enum member, but
hypothesis_generator.py line 133 assigns a float (intent.uncertainty) to the
same attribute, so the model keeps both possibilities. -/
inductive UncValue where
  | level (l : UncertaintyLevel)
  | num (q : ℚ)
deriving DecidableEq, Repr

/-- Python equality test between the uncertainty attribute and an enum
member: a float never equals an enum member. -/
def UncValue.eqLevel : UncValue → UncertaintyLevel → Bool
  | .level x, l => x = l
  | .num _, _ => false

/-- Evidence from network interrogation, from state.py (timestamp and
metadata carry no logic and are omitted). -/
structure Evidence where
  content : String
  source : String
  confidence : ℚ
deriving DecidableEq, Repr

/-- A contradiction in information, from state.py (timestamp omitted). -/
structure Contradiction where
  claim_a : String
  claim_b : String
  source_a : String
  source_b : String
  severity : ℚ
deriving DecidableEq, Repr

/-- Python min on two rationals. -/
def qmin (a b : ℚ) : ℚ := if a ≤ b then a else b

/-- Python max on two rationals. -/
def qmax (a b : ℚ) : ℚ := if b ≤ a then a else b

/-- Python abs on a rational. -/
def qabs (a : ℚ) : ℚ := if a < 0 then -a else a

/-- Lookup in an insertion-ordered association list (Python dict read). -/
def alistLookup {α : Type} (l : List (String × α)) (k : String) : Option α :=
  match l with
  | [] => none
  | (k₀, v₀) :: rest => if k₀ = k then some v₀ else alistLookup rest k

/-- Overwrite the value of an existing key in place (Python dict write to a
key that is already present keeps its position). -/
def alistSet {α : Type} (l : List (String × α)) (k : String) (v : α) :
    List (String × α) :=
  match l with
  | [] => []
  | (k₀, v₀) :: rest =>
      if k₀ = k then (k₀, v) :: rest else (k₀, v₀) :: alistSet rest k v

/-- Python dict write: overwrite an existing key in place, or append a new
key at the end (insertion order). -/
def alistInsert {α : Type} (l : List (String × α)) (k : String) (v : α) :
    List (String × α) :=
  match alistLookup l k with
  | none => l ++ [(k, v)]
  | some _ => alistSet l k v

/-- Guarded insertion into a Python set modelled as a duplicate-free list. -/
def setAdd (l : List String) (x : String) : List String :=
  if l.contains x then l else l ++ [x]

/-- Lowercase a string character by character (Python str.lower). -/
def pyLower (s : String) : String := ⟨s.data.map Char.toLower⟩

/-- First n characters of a string (Python slicing s[:n]). -/
def strTake (s : String) (n : ℕ) : String := ⟨s.data.take n⟩

/-- Splitting on whitespace runs, dropping empty pieces, accumulating the
current word in reverse. -/
def splitWordsAux (cur : List Char) : List Char → List String
  | [] => if cur.isEmpty then [] else [⟨cur.reverse⟩]
  | c :: rest =>
      if c.isWhitespace then
        if cur.isEmpty then splitWordsAux [] rest
        else String.mk cur.reverse :: splitWordsAux [] rest
      else splitWordsAux (c :: cur) rest

/-- Python text.lower().split(): lowercase, then split on whitespace. -/
def pyWords (s : String) : List String :=
  splitWordsAux [] (s.data.map Char.toLower)

/-- Size of the intersection of two Python sets of words. -/
def interCount (xs ys : List String) : ℕ :=
  (xs.dedup.filter (fun w => ys.contains w)).length

/-- Does the first character list start the second one? -/
def charsStart : List Char → List Char → Bool
  | [], _ => true
  | _ :: _, [] => false
  | a :: as, b :: bs => a == b && charsStart as bs

/-- Does the first character list occur inside the second one? -/
def charsContain (pat : List Char) : List Char → Bool
  | [] => charsStart pat []
  | c :: rest => charsStart pat (c :: rest) || charsContain pat rest

/-- Python substring membership test (the in operator on strings). -/
def pyIn (pat s : String) : Bool := charsContain pat.data s.data

/-- Negation words used by the contradiction heuristic, from state.py. -/
def negationWords : List String := ["not", "no", "never", "neither", "none", "nobody"]

/-- CognitiveState._is_contradictory: negation-term asymmetry plus more than
3 shared words. -/
def isContradictory (e₁ e₂ : Evidence) : Bool :=
  let w₁ := pyWords e₁.content
  let w₂ := pyWords e₂.content
  let hasNeg₁ := w₁.any (fun w => negationWords.contains w)
  let hasNeg₂ := w₂.any (fun w => negationWords.contains w)
  (hasNeg₁ != hasNeg₂) && decide (interCount w₁ w₂ > 3)

/-- The Contradiction built by CognitiveState.detect_contradictions for a
contradictory evidence pair. -/
def mkContradiction (e₁ e₂ : Evidence) : Contradiction :=
  { claim_a := strTake e₁.content 100
    claim_b := strTake e₂.content 100
    source_a := e₁.source
    source_b := e₂.source
    severity := qabs (e₁.confidence - e₂.confidence) }

/-- All ordered pairs (i, j) with i < j of the evidence list, in the nested
loop order of detect_contradictions, kept when contradictory. -/
def pairContradictions : List Evidence → List Contradiction
  | [] => []
  | e :: rest =>
      (rest.filter (fun e₂ => isContradictory e e₂)).map (mkContradiction e)
        ++ pairContradictions rest

/-- CognitiveState, from state.py (creation_time and last_update carry no
logic and are omitted). -/
structure CognitiveState where
  knowledge : List (String × List Evidence)
  uncertainty : UncValue
  uncertaintyMap : List (String × ℚ)
  contradictions : List Contradiction
  confidence : ℚ
  confidenceHistory : List ℚ
  queriesMade : List String
  sourcesAccessed : List String
deriving DecidableEq, Repr

/-- A freshly constructed CognitiveState. -/
def initialState : CognitiveState :=
  { knowledge := []
    uncertainty := .level .UNKNOWN
    uncertaintyMap := []
    contradictions := []
    confidence := 0
    confidenceHistory := []
    queriesMade := []
    sourcesAccessed := [] }

/-- All evidence across all topics, in dict iteration order. -/
def allEvidence (s : CognitiveState) : List Evidence :=
  (s.knowledge.map Prod.snd).flatten

/-- CognitiveState._update_confidence: evidence-confidence mean, then a
multiplicative contradiction penalty. -/
def updateConfidence (s : CognitiveState) : CognitiveState :=
  if s.knowledge.isEmpty then { s with confidence := 0 }
  else
    let evs := allEvidence s
    let s₁ :=
      if 0 < evs.length then
        let c := (evs.map Evidence.confidence).sum / (evs.length : ℚ)
        { s with confidence := c, confidenceHistory := s.confidenceHistory ++ [c] }
      else s
    if s₁.contradictions.isEmpty then s₁
    else
      let penalty := qmin (3/10) ((s₁.contradictions.length : ℚ) * (1/20))
      { s₁ with confidence := s₁.confidence * (1 - penalty) }

/-- CognitiveState.add_evidence. -/
def addEvidence (s : CognitiveState) (topic : String) (ev : Evidence) :
    CognitiveState :=
  let knowledge' :=
    match alistLookup s.knowledge topic with
    | none => s.knowledge ++ [(topic, [ev])]
    | some evs => alistSet s.knowledge topic (evs ++ [ev])
  updateConfidence
    { s with knowledge := knowledge'
             sourcesAccessed := setAdd s.sourcesAccessed ev.source }

/-- CognitiveState.detect_contradictions: returns the new contradictions and
extends the state's contradiction list with them. -/
def detectContradictions (s : CognitiveState) (topic : String) :
    CognitiveState × List Contradiction :=
  match alistLookup s.knowledge topic with
  | none => (s, [])
  | some evs =>
      let newC := pairContradictions evs
      ({ s with contradictions := s.contradictions ++ newC }, newC)

/-- CognitiveState.update_uncertainty: writes the per-topic uncertainty map
and returns the classified level without storing it. -/
def updateUncertainty (s : CognitiveState) (topic : String) :
    CognitiveState × UncertaintyLevel :=
  match alistLookup s.knowledge topic with
  | none => ({ s with uncertaintyMap := alistInsert s.uncertaintyMap topic 1 }, .UNKNOWN)
  | some evs =>
      let numSources := (evs.map Evidence.source).dedup.length
      let avg := (evs.map Evidence.confidence).sum / (evs.length : ℚ)
      let contradictionCount :=
        (s.contradictions.filter
          (fun c => pyIn topic c.claim_a || pyIn topic c.claim_b)).length
      let score :=
        qmax 0 (qmin 1
          (1 - avg + (contradictionCount : ℚ) * (1/10) - (numSources : ℚ) * (1/20)))
      let lvl : UncertaintyLevel :=
        if score < 1/5 then .CERTAIN
        else if score < 2/5 then .LOW
        else if score < 3/5 then .MEDIUM
        else if score < 4/5 then .HIGH
        else .UNKNOWN
      ({ s with uncertaintyMap := alistInsert s.uncertaintyMap topic score }, lvl)

/-- Source strategy, from epistemic_router.py (source_type kept as its
string value). -/
structure SourceStrategy where
  sourceType : String
  priority : ℚ
  queryTemplate : String
  trustScore : ℚ
  freshnessRequirement : String
  cost : ℚ
  expectedValue : ℚ
deriving DecidableEq, Repr

/-- Hypothesis, from hypothesis_generator.py. -/
structure Hypothesis where
  id : String
  description : String
  assumptions : List String
  sourceStrategy : SourceStrategy
  state : CognitiveState
  confidence : ℚ := 0
  cost : ℚ := 0
  eliminated : Bool := false
  eliminationReason : String := ""
deriving DecidableEq, Repr

/-- Parsed intent, from intent_parser.py (only the fields the core
consumes; uncertainty is a float in [0,1]). -/
structure IntentGraph where
  goal : String
  uncertainty : ℚ
deriving DecidableEq, Repr

/-- HypothesisGenerator._create_hypothesis_from_strategy. Note that it
assigns the float intent.uncertainty to the state's uncertainty attribute
(the id is a fresh uuid in Python; it is passed in here). -/
def createHypothesisFromStrategy (freshId : String) (intent : IntentGraph)
    (strategy : SourceStrategy) (index : ℕ) : Hypothesis :=
  { id := freshId
    description := "Hypothesis " ++ toString (index + 1) ++ ": Use "
      ++ strategy.sourceType ++ " to answer '" ++ strTake intent.goal 50 ++ "...'"
    assumptions :=
      [strategy.sourceType ++ " is reliable for this query",
       "Trust level", "Freshness requirement: " ++ strategy.freshnessRequirement]
    sourceStrategy := strategy
    state := { initialState with uncertainty := .num intent.uncertainty }
    confidence := 0
    cost := 0 }

/-- Result of one interrogation loop run, from interrogation_loop.py. -/
structure InterrogationResult where
  hypothesis : Hypothesis
  iterations : ℕ
  totalCost : ℚ
  finalConfidence : ℚ
  converged : Bool
  convergenceReason : String
deriving DecidableEq, Repr

/-- Loop configuration, from InterrogationLoop.__init__. -/
structure LoopCfg where
  confidenceThreshold : ℚ := 7/10
  maxIterations : ℕ := 10
  budget : ℚ := 10
deriving DecidableEq, Repr

/-- InterrogationLoop._select_next_query: the deterministic state-driven
choice of the next query, or none when enough is known. -/
def selectNextQuery (h : Hypothesis) : Option String :=
  if h.state.knowledge.isEmpty then some h.sourceStrategy.queryTemplate
  else if h.state.uncertainty.eqLevel .HIGH then
    some ("alternative view " ++ h.sourceStrategy.queryTemplate)
  else
    match h.state.contradictions.getLast? with
    | some c => some ("clarify " ++ strTake c.claim_a 50)
    | none =>
        if h.state.confidence < 1/2 then
          some ("detailed " ++ h.sourceStrategy.queryTemplate)
        else none

/-- InterrogationLoop._recompute_confidence: evidence mean plus a
source-diversity bonus minus a contradiction penalty, clamped to [0, 1]. -/
def recomputeConfidence (s : CognitiveState) : ℚ :=
  if s.knowledge.isEmpty then 0
  else
    let evs := allEvidence s
    if evs.isEmpty then 0
    else
      let avg := (evs.map Evidence.confidence).sum / (evs.length : ℚ)
      let diversity := qmin (1/5) ((s.sourcesAccessed.length : ℚ) * (1/25))
      let penalty := qmin (3/10) ((s.contradictions.length : ℚ) * (1/20))
      qmin 1 (qmax 0 (avg + diversity - penalty))

/-- Adding a list of evidence items to a state in order, as the loop body
does for each converted result. -/
def addEvidenceList (s : CognitiveState) (topic : String)
    (evs : List Evidence) : CognitiveState :=
  evs.foldl (fun acc e => addEvidence acc topic e) s

/-- The successful-query branch of the loop body in InterrogationLoop.run:
increment the cost, add the evidence, recompute the hypothesis confidence,
detect contradictions, and extend the state's contradiction list with the
returned contradictions when non-empty. Returns the updated hypothesis and
the updated running total cost. -/
def successStep (hyp : Hypothesis) (evs : List Evidence) (totalCost : ℚ) :
    Hypothesis × ℚ :=
  let cost' := totalCost + hyp.sourceStrategy.cost
  let st₁ := addEvidenceList hyp.state hyp.description evs
  let conf := recomputeConfidence st₁
  let dc := detectContradictions st₁ hyp.description
  let st₂ :=
    if dc.2.isEmpty then dc.1
    else { dc.1 with contradictions := dc.1.contradictions ++ dc.2 }
  ({ hyp with cost := cost', state := st₂, confidence := conf }, cost')

/-- One pass of InterrogationLoop.run, fuelled (the fuel is justified below:
the iteration-count stop bounds the number of passes). The evidence source
behaviour is a function from the query-attempt index to either an exception
(none) or a converted evidence list (some); the natural number paired with
the result counts the query attempts made. -/
def runAux (cfg : LoopCfg) (src : ℕ → Option (List Evidence)) :
    ℕ → Hypothesis → ℕ → ℚ → ℕ → Option (InterrogationResult × ℕ)
  | 0, _, _, _, _ => none
  | fuel + 1, hyp, iteration, totalCost, attempts =>
      let it := iteration + 1
      if cfg.confidenceThreshold ≤ hyp.state.confidence then
        some ({ hypothesis := hyp, iterations := it, totalCost := totalCost
                finalConfidence := hyp.confidence, converged := true
                convergenceReason := "confidence_threshold_reached" }, attempts)
      else if cfg.maxIterations < it then
        some ({ hypothesis := hyp, iterations := it, totalCost := totalCost
                finalConfidence := hyp.confidence, converged := false
                convergenceReason := "max_iterations_exceeded" }, attempts)
      else if cfg.budget ≤ totalCost then
        some ({ hypothesis := hyp, iterations := it, totalCost := totalCost
                finalConfidence := hyp.confidence, converged := false
                convergenceReason := "budget_exceeded" }, attempts)
      else
        match selectNextQuery hyp with
        | none =>
            some ({ hypothesis := hyp, iterations := it, totalCost := totalCost
                    finalConfidence := hyp.confidence, converged := false
                    convergenceReason := "no_more_queries" }, attempts)
        | some q =>
            if q = "" then
              some ({ hypothesis := hyp, iterations := it, totalCost := totalCost
                      finalConfidence := hyp.confidence, converged := false
                      convergenceReason := "no_more_queries" }, attempts)
            else
              match src attempts with
              | none => runAux cfg src fuel hyp it totalCost (attempts + 1)
              | some evs =>
                  let step := successStep hyp evs totalCost
                  runAux cfg src fuel step.1 it step.2 (attempts + 1)

/-- InterrogationLoop.run: a run can make at most maxIterations + 1 passes
before the iteration-count stop fires, so that much fuel is exact. -/
def run (cfg : LoopCfg) (src : ℕ → Option (List Evidence))
    (hyp : Hypothesis) : Option (InterrogationResult × ℕ) :=
  runAux cfg src (cfg.maxIterations + 1) hyp 0 0 0

/-- Elimination criteria with their defaults, from hypothesis_eliminator.py. -/
structure EliminationCriteria where
  minConfidence : ℚ := 3/10
  maxCost : ℚ := 10
  minEvidence : ℕ := 2
  maxContradictions : ℕ := 5
  convergenceRequired : Bool := false
deriving DecidableEq, Repr

/-- Total evidence count of a state across all topics. -/
def totalEvidenceCount (s : CognitiveState) : ℕ :=
  ((s.knowledge.map Prod.snd).map List.length).sum

/-- The sixth elimination criterion of _should_eliminate (state quality):
it reads the value attribute of state.uncertainty; when that attribute
holds a float (as for every strategy-based hypothesis built by the
generator) Python raises AttributeError, modelled as an error result. The
numeric parts of all reason strings are elided throughout. -/
def uncertaintyCriterion (h : Hypothesis) : Except String (Bool × String) :=
  match h.state.uncertainty with
  | .num _ => .error "AttributeError"
  | .level l =>
      if 4 ≤ l.value ∧ h.confidence < 1/2 then
        .ok (true, "High uncertainty with low confidence")
      else .ok (false, "")

/-- HypothesisEliminator._should_eliminate, criteria 1 to 5 followed by the
state-quality check. -/
def shouldEliminate (c : EliminationCriteria) (h : Hypothesis)
    (result : Option InterrogationResult) : Except String (Bool × String) :=
  if h.confidence < c.minConfidence then .ok (true, "Low confidence")
  else if c.maxCost < h.cost then .ok (true, "Cost too high")
  else if totalEvidenceCount h.state < c.minEvidence then
    .ok (true, "Insufficient evidence")
  else if c.maxContradictions < h.state.contradictions.length then
    .ok (true, "Too many contradictions")
  else
    match c.convergenceRequired, result with
    | true, some r =>
        if r.converged = false then .ok (true, "Did not converge")
        else uncertaintyCriterion h
    | _, _ => uncertaintyCriterion h

/-- HypothesisEliminator.eliminate_weak, indexed walk through the
hypotheses pairing each with its result when present; an exception from
the sixth criterion propagates. -/
def eliminateWeakAux (c : EliminationCriteria)
    (results : Option (List InterrogationResult)) :
    List Hypothesis → ℕ → Except String (List Hypothesis × List Hypothesis)
  | [], _ => .ok ([], [])
  | h :: rest, i =>
      if h.eliminated then do
        let (s, e) ← eliminateWeakAux c results rest (i + 1)
        pure (s, h :: e)
      else do
        let r :=
          match results with
          | none => none
          | some rs => rs.get? i
        let (elim, reason) ← shouldEliminate c h r
        let (s, e) ← eliminateWeakAux c results rest (i + 1)
        if elim then
          pure (s, { h with eliminated := true, eliminationReason := reason } :: e)
        else pure (h :: s, e)

/-- HypothesisEliminator.eliminate_weak. -/
def eliminateWeak (c : EliminationCriteria) (hyps : List Hypothesis)
    (results : Option (List InterrogationResult)) :
    Except String (List Hypothesis × List Hypothesis) :=
  eliminateWeakAux c results hyps 0

/-- HypothesisEliminator._compute_hypothesis_score. -/
def computeHypothesisScore (h : Hypothesis) : ℚ :=
  let confTerm := h.confidence * (2/5)
  let evs := allEvidence h.state
  let evTerm :=
    if evs.isEmpty then 0
    else ((evs.map Evidence.confidence).sum / (evs.length : ℚ)) * (3/10)
  let costTerm :=
    if 0 < h.cost then qmin 1 (h.confidence / (h.cost + 1/10)) * (1/5)
    else 1/5
  let contraTerm :=
    (1/10) - qmin (1/10) ((h.state.contradictions.length : ℚ) * (1/50))
  confTerm + evTerm + costTerm + contraTerm

/-- The descending-score order used by rank_hypotheses (Python stable sort
with reverse=True). -/
def rankRel (a b : Hypothesis) : Prop :=
  computeHypothesisScore b ≤ computeHypothesisScore a

instance : DecidableRel rankRel := fun a b =>
  inferInstanceAs (Decidable (computeHypothesisScore b ≤ computeHypothesisScore a))

instance : IsTotal Hypothesis rankRel :=
  ⟨fun a b => le_total (computeHypothesisScore b) (computeHypothesisScore a)⟩

instance : IsTrans Hypothesis rankRel :=
  ⟨fun _ _ _ hab hbc => le_trans hbc hab⟩

/-- HypothesisEliminator.rank_hypotheses: drop eliminated hypotheses and
stably sort the rest by score, highest first. -/
def rankHypotheses (hyps : List Hypothesis) : List Hypothesis :=
  (hyps.filter (fun h => !h.eliminated)).insertionSort rankRel

/-- HypothesisEliminator.select_best. -/
def selectBest (hyps : List Hypothesis) (n : ℕ) : List Hypothesis :=
  (rankHypotheses hyps).take n

/-- A default hypothesis, for total head access in the model. -/
def defaultHypothesis : Hypothesis :=
  { id := "", description := "", assumptions := []
    sourceStrategy :=
      { sourceType := "", priority := 0, queryTemplate := "", trustScore := 0
        freshnessRequirement := "", cost := 0, expectedValue := 0 }
    state := initialState }

instance : Inhabited Hypothesis := ⟨defaultHypothesis⟩

/-- HypothesisEliminator.should_continue_search. -/
def shouldContinueSearch (hyps : List Hypothesis) (threshold : ℚ) : Bool :=
  if hyps.isEmpty then true
  else
    let active := hyps.filter (fun h => !h.eliminated)
    if active.isEmpty then false
    else
      match selectBest active 1 with
      | [] => true
      | b :: _ => if threshold ≤ b.confidence then false else true

/-- StateSynthesizer._aggregate_confidence weight: confidence times
evidence count per unit cost. -/
def hypWeight (h : Hypothesis) : ℚ :=
  h.confidence * ((totalEvidenceCount h.state : ℚ) / (h.cost + 1))

/-- StateSynthesizer._aggregate_confidence. -/
def aggregateConfidence (hyps : List Hypothesis) : ℚ :=
  if hyps.isEmpty then 0
  else
    let totalWeight := (hyps.map hypWeight).sum
    let weightedSum := (hyps.map (fun h => h.confidence * hypWeight h)).sum
    if totalWeight = 0 then 0 else weightedSum / totalWeight

/-- Python min over a non-empty list, folded from the first element. -/
def listMin : List ℚ → ℚ
  | [] => 0
  | q :: rest => rest.foldl qmin q

/-- Python max over a non-empty list, folded from the first element. -/
def listMax : List ℚ → ℚ
  | [] => 0
  | q :: rest => rest.foldl qmax q

/-- StateSynthesizer._calculate_confidence_interval: the literal (min, max)
spread of the surviving confidences. -/
def calculateConfidenceInterval (hyps : List Hypothesis) : ℚ × ℚ :=
  if hyps.isEmpty then (0, 0)
  else
    let confs := hyps.map Hypothesis.confidence
    (listMin confs, listMax confs)

/-! Reference-semantics model of CognitiveState for fork.

Python copies the knowledge dict shallowly in CognitiveState.fork: the dict
object is new but the evidence lists inside are the same objects. To state
anything about that aliasing, the evidence lists live in an explicit store
of cells and the knowledge dict maps each topic to a cell index. The
contradiction list, the uncertainty map, the query log and the source set
are copied by value by fork (list.copy / set.copy), so they stay inline. -/

/-- The store of evidence-list cells (the Python heap restricted to the
evidence lists held by knowledge dicts). -/
structure EvStore where
  cells : List (List Evidence)
deriving DecidableEq, Repr

/-- Read a cell. -/
def cellGet (st : EvStore) (i : ℕ) : List Evidence := st.cells.getD i []

/-- Overwrite a cell. -/
def cellSet (st : EvStore) (i : ℕ) (l : List Evidence) : EvStore :=
  ⟨st.cells.set i l⟩

/-- CognitiveState in the reference-semantics model: knowledge maps topics
to store cell indices. -/
structure RefState where
  knowledge : List (String × ℕ)
  uncertainty : UncValue
  uncertaintyMap : List (String × ℚ)
  contradictions : List Contradiction
  confidence : ℚ
  confidenceHistory : List ℚ
  queriesMade : List String
  sourcesAccessed : List String
deriving DecidableEq, Repr

/-- A freshly constructed CognitiveState in the reference model. -/
def refInitialState : RefState :=
  { knowledge := []
    uncertainty := .level .UNKNOWN
    uncertaintyMap := []
    contradictions := []
    confidence := 0
    confidenceHistory := []
    queriesMade := []
    sourcesAccessed := [] }

/-- All evidence of a reference state, read through the store. -/
def refAllEvidence (st : EvStore) (s : RefState) : List Evidence :=
  (s.knowledge.map (fun p => cellGet st p.2)).flatten

/-- CognitiveState._update_confidence in the reference model. -/
def refUpdateConfidence (st : EvStore) (s : RefState) : RefState :=
  if s.knowledge.isEmpty then { s with confidence := 0 }
  else
    let evs := refAllEvidence st s
    let s₁ :=
      if 0 < evs.length then
        let c := (evs.map Evidence.confidence).sum / (evs.length : ℚ)
        { s with confidence := c, confidenceHistory := s.confidenceHistory ++ [c] }
      else s
    if s₁.contradictions.isEmpty then s₁
    else
      let penalty := qmin (3/10) ((s₁.contradictions.length : ℚ) * (1/20))
      { s₁ with confidence := s₁.confidence * (1 - penalty) }

/-- CognitiveState.add_evidence in the reference model: a missing topic
allocates a fresh cell, then the evidence is appended to the topic's cell
(mutating the shared cell in place). -/
def refAddEvidence (st : EvStore) (s : RefState) (topic : String)
    (ev : Evidence) : EvStore × RefState :=
  let (st₁, s₁, idx) :=
    match alistLookup s.knowledge topic with
    | none =>
        (EvStore.mk (st.cells ++ [[]]),
         { s with knowledge := s.knowledge ++ [(topic, st.cells.length)] },
         st.cells.length)
    | some i => (st, s, i)
  let st₂ := cellSet st₁ idx (cellGet st₁ idx ++ [ev])
  let s₂ := { s₁ with sourcesAccessed := setAdd s₁.sourcesAccessed ev.source }
  (st₂, refUpdateConfidence st₂ s₂)

/-- CognitiveState.fork: knowledge is dict.copy() (a new dict holding the
same cell indices, so the evidence lists are shared), while the uncertainty
map, the contradictions, the query log and the source set are value copies
and confidence is copied; the confidence history of the fresh state stays
empty because fork never assigns it. -/
def refFork (s : RefState) : RefState :=
  { knowledge := s.knowledge
    uncertainty := s.uncertainty
    uncertaintyMap := s.uncertaintyMap
    contradictions := s.contradictions
    confidence := s.confidence
    confidenceHistory := []
    queriesMade := s.queriesMade
    sourcesAccessed := s.sourcesAccessed }

/-- Evidence count a state observes for a topic, read through the store. -/
def refEvidenceCount (st : EvStore) (s : RefState) (topic : String) : ℕ :=
  match alistLookup s.knowledge topic with
  | none => 0
  | some i => (cellGet st i).length

/-! Helper lemmas about the state operations. -/

/-- The four loop-stopping reasons of InterrogationLoop.run. -/
def stopReasons : List String :=
  ["confidence_threshold_reached", "max_iterations_exceeded",
   "budget_exceeded", "no_more_queries"]

/-- The confidence formula as the specification words it: evidence
confidence mean plus a source-diversity bonus min(0.2, 0.04 x distinct
sources) minus a contradiction penalty min(0.3, 0.05 x contradiction
count), clamped to [0, 1] (and 0 with no evidence at all). -/
def spec_confidenceFormula (s : CognitiveState) : ℚ :=
  let evs := allEvidence s
  if evs.isEmpty then 0
  else
    qmin 1 (qmax 0
      ((evs.map Evidence.confidence).sum / (evs.length : ℚ)
        + qmin (1/5) ((s.sourcesAccessed.length : ℚ) * (1/25))
        - qmin (3/10) ((s.contradictions.length : ℚ) * (1/20))))

/-- Concrete iteration for the C3 counterexample: a fresh hypothesis whose
first successful query returns a single evidence item. -/
def c3Hyp : Hypothesis :=
  { id := "c3", description := "d", assumptions := []
    sourceStrategy :=
      { sourceType := "web", priority := 1/2, queryTemplate := "q"
        trustScore := 1/2, freshnessRequirement := "any", cost := 1
        expectedValue := 1/2 }
    state := initialState }

def c3Ev : Evidence := { content := "alpha beta", source := "s", confidence := 1/2 }

/-- Concrete input for the C4 counterexample: evidence present, uncertainty
at its creation-time value Unknown, no contradictions, confidence at least
one half. -/
def c4Hyp : Hypothesis :=
  { id := "c4", description := "d", assumptions := []
    sourceStrategy :=
      { sourceType := "web", priority := 1/2, queryTemplate := "base q"
        trustScore := 1/2, freshnessRequirement := "any", cost := 1
        expectedValue := 1/2 }
    state :=
      { initialState with
          knowledge := [("d", [{ content := "alpha", source := "s", confidence := 3/5 }])]
          uncertainty := .level .UNKNOWN
          confidence := 3/5
          sourcesAccessed := ["s"] } }

/-- An eliminated hypothesis for the C5 counterexample. -/
def c5Elim : Hypothesis :=
  { defaultHypothesis with id := "c5e", confidence := 9/10, eliminated := true }

/-- An active hypothesis below the threshold for the C5 witness. -/
def c5Act : Hypothesis :=
  { defaultHypothesis with id := "c5a", confidence := 3/5, eliminated := false }

/-- Hypothesis with confidence one half and no evidence: its weight is 0,
so the aggregate falls back to 0 while the interval is (1/2, 1/2). -/
def c6Hyp : Hypothesis :=
  { defaultHypothesis with id := "c6", confidence := 1/2, cost := 0 }

/-- Hypothesis with one evidence item, for the C6 witness: its weight is
1/2 x (1 / 2) = 1/4, so the weighted-mean branch is exercised. -/
def c6W : Hypothesis :=
  { defaultHypothesis with
      id := "c6w", confidence := 1/2, cost := 1
      state :=
        { initialState with
            knowledge := [("t", [{ content := "alpha", source := "s", confidence := 3/5 }])]
            sourcesAccessed := ["s"] } }

/-- Two hypotheses for the C8 witness, identical except for confidence. -/
def c8Low : Hypothesis :=
  { defaultHypothesis with id := "c8-low", confidence := 3/10, cost := 1 }

def c8High : Hypothesis :=
  { defaultHypothesis with id := "c8-high", confidence := 7/10, cost := 1 }

def c1Ev₁ : Evidence := { content := "Test", source := "source", confidence := 4/5 }

def c1Ev₂ : Evidence := { content := "New", source := "source2", confidence := 7/10 }

/-- Store and state after adding one evidence item on topic to a fresh
state. -/
def c1Setup : EvStore × RefState :=
  refAddEvidence ⟨[]⟩ refInitialState "topic" c1Ev₁

/-- Store and forked state after forking the original and adding a second
evidence item on the same, already existing, topic to the fork. -/
def c1AfterForkAdd : EvStore × RefState :=
  refAddEvidence c1Setup.1 (refFork c1Setup.2) "topic" c1Ev₂

/-- The default elimination criteria of EliminationCriteria. -/
def defaultCriteria : EliminationCriteria := {}

def c2Intent : IntentGraph := { goal := "some goal", uncertainty := 1/2 }

def c2Strategy : SourceStrategy :=
  { sourceType := "encyclopedic", priority := 1/2, queryTemplate := "q"
    trustScore := 7/10, freshnessRequirement := "any", cost := 1
    expectedValue := 3/5 }

def c2Ev₁ : Evidence := { content := "alpha beta gamma", source := "s1", confidence := 4/5 }

def c2Ev₂ : Evidence := { content := "delta epsilon zeta", source := "s2", confidence := 4/5 }

/-- A strategy-based hypothesis as the generator builds it (its state's
uncertainty attribute holds the float intent.uncertainty). -/
def c2Base : Hypothesis := createHypothesisFromStrategy "c2-id" c2Intent c2Strategy 0

/-- The hypothesis after two successful evidence additions, with its
confidence recomputed as the loop does: it passes elimination criteria 1
to 5 and reaches the state-quality criterion. -/
def c2Hyp : Hypothesis :=
  let st := addEvidence (addEvidence c2Base.state c2Base.description c2Ev₁)
    c2Base.description c2Ev₂
  { c2Base with state := st, confidence := recomputeConfidence st }

lemma updateConfidence_uncertainty (s : CognitiveState) :
    (updateConfidence s).uncertainty = s.uncertainty := by
  unfold updateConfidence
  dsimp only
  split
  · rfl
  · split
    · split <;> rfl
    · split <;> rfl

lemma addEvidence_uncertainty (s : CognitiveState) (t : String) (e : Evidence) :
    (addEvidence s t e).uncertainty = s.uncertainty := by
  unfold addEvidence
  rw [updateConfidence_uncertainty]

lemma detectContradictions_uncertainty (s : CognitiveState) (t : String) :
    (detectContradictions s t).1.uncertainty = s.uncertainty := by
  unfold detectContradictions
  cases alistLookup s.knowledge t <;> rfl

lemma updateUncertainty_uncertainty (s : CognitiveState) (t : String) :
    (updateUncertainty s t).1.uncertainty = s.uncertainty := by
  unfold updateUncertainty
  cases alistLookup s.knowledge t <;> rfl

lemma updateConfidence_contradictions (s : CognitiveState) :
    (updateConfidence s).contradictions = s.contradictions := by
  unfold updateConfidence
  dsimp only
  split
  · rfl
  · split
    · split <;> rfl
    · split <;> rfl

lemma addEvidence_contradictions (s : CognitiveState) (t : String) (e : Evidence) :
    (addEvidence s t e).contradictions = s.contradictions := by
  unfold addEvidence
  rw [updateConfidence_contradictions]

lemma addEvidenceList_contradictions (t : String) (evs : List Evidence) :
    ∀ s : CognitiveState,
      (addEvidenceList s t evs).contradictions = s.contradictions := by
  induction evs with
  | nil => intro s; rfl
  | cons e rest ih =>
      intro s
      show (addEvidenceList (addEvidence s t e) t rest).contradictions = _
      rw [ih, addEvidence_contradictions]

lemma detectContradictions_fst_contradictions (s : CognitiveState) (t : String) :
    (detectContradictions s t).1.contradictions
      = s.contradictions ++ (detectContradictions s t).2 := by
  unfold detectContradictions
  cases alistLookup s.knowledge t with
  | none => simp
  | some evs => rfl

/-- C9: in every successful loop iteration that detects k new
contradictions, the hypothesis state's contradiction list grows by 2k:
detect_contradictions (state.py) already extends the state's list with the
new contradictions, and the loop body (interrogation_loop.py) extends it a
second time with the same returned list. -/
theorem C9_contradictions_double_appended (hyp : Hypothesis)
    (evs : List Evidence) (cost : ℚ) :
    ((successStep hyp evs cost).1).state.contradictions.length
      = hyp.state.contradictions.length
        + 2 * ((detectContradictions
                 (addEvidenceList hyp.state hyp.description evs)
                 hyp.description).2).length := by
  unfold successStep
  dsimp only
  split
  next hEmpty =>
    rw [detectContradictions_fst_contradictions,
        addEvidenceList_contradictions]
    rw [List.isEmpty_iff] at hEmpty
    simp [hEmpty]
  next hNe =>
    dsimp only
    rw [List.length_append, detectContradictions_fst_contradictions,
        addEvidenceList_contradictions, List.length_append]
    omega

/-- C10: no state operation writes the uncertainty attribute after
creation: add_evidence, detect_contradictions and update_uncertainty all
leave it at its creation-time value (update_uncertainty writes only the
uncertainty map and returns the computed level without assigning the
attribute). -/
theorem C10_uncertainty_never_written (s : CognitiveState) (t : String)
    (e : Evidence) :
    (addEvidence s t e).uncertainty = s.uncertainty
    ∧ (detectContradictions s t).1.uncertainty = s.uncertainty
    ∧ (updateUncertainty s t).1.uncertainty = s.uncertainty :=
  ⟨addEvidence_uncertainty s t e, detectContradictions_uncertainty s t,
   updateUncertainty_uncertainty s t⟩

/-! Termination of the interrogation loop. -/

lemma runAux_terminates (cfg : LoopCfg) (src : ℕ → Option (List Evidence)) :
    ∀ (fuel iteration : ℕ) (hyp : Hypothesis) (cost : ℚ) (att : ℕ),
      cfg.maxIterations + 1 ≤ fuel + iteration →
      iteration ≤ cfg.maxIterations →
      ∃ r a, runAux cfg src fuel hyp iteration cost att = some (r, a)
        ∧ r.convergenceReason ∈ stopReasons := by
  intro fuel
  induction fuel with
  | zero => intro iteration hyp cost att h₁ h₂; omega
  | succ fuel ih =>
      intro iteration hyp cost att h₁ h₂
      rw [runAux]
      dsimp only
      by_cases hc : cfg.confidenceThreshold ≤ hyp.state.confidence
      · exact ⟨_, _, by rw [if_pos hc], by simp [stopReasons]⟩
      · rw [if_neg hc]
        by_cases hm : cfg.maxIterations < iteration + 1
        · exact ⟨_, _, by rw [if_pos hm], by simp [stopReasons]⟩
        · rw [if_neg hm]
          by_cases hb : cfg.budget ≤ cost
          · exact ⟨_, _, by rw [if_pos hb], by simp [stopReasons]⟩
          · rw [if_neg hb]
            cases hq : selectNextQuery hyp with
            | none => exact ⟨_, _, rfl, by simp [stopReasons]⟩
            | some q =>
                dsimp only
                by_cases hq0 : q = ""
                · exact ⟨_, _, by rw [if_pos hq0], by simp [stopReasons]⟩
                · rw [if_neg hq0]
                  cases src att with
                  | none =>
                      dsimp only
                      exact ih (iteration + 1) hyp cost (att + 1) (by omega) (by omega)
                  | some evs =>
                      dsimp only
                      exact ih (iteration + 1) _ _ (att + 1) (by omega) (by omega)

lemma run_budget_zero (cfg : LoopCfg) (src : ℕ → Option (List Evidence))
    (hyp : Hypothesis) (hb : cfg.budget = 0) :
    ∃ r, run cfg src hyp = some (r, 0)
      ∧ (r.convergenceReason = "budget_exceeded"
         ∨ r.convergenceReason = "confidence_threshold_reached"
         ∨ r.convergenceReason = "max_iterations_exceeded") := by
  unfold run
  rw [runAux]
  dsimp only
  by_cases hc : cfg.confidenceThreshold ≤ hyp.state.confidence
  · exact ⟨_, by rw [if_pos hc], Or.inr (Or.inl rfl)⟩
  · rw [if_neg hc]
    by_cases hm : cfg.maxIterations < 0 + 1
    · exact ⟨_, by rw [if_pos hm], Or.inr (Or.inr rfl)⟩
    · rw [if_neg hm]
      have h0 : cfg.budget ≤ (0 : ℚ) := le_of_eq hb
      exact ⟨_, by rw [if_pos h0], Or.inl rfl⟩

/-- C7: every interrogation loop run terminates (the iteration-count stop
bounds the passes, so fuel maxIterations + 1 always yields a result) with
exactly one of the four stopping reasons, and a run with budget 0 makes at
most one query attempt and stops with budget_exceeded or with one of the
two stopping reasons checked earlier in the iteration. -/
theorem C7_run_terminates (cfg : LoopCfg) (src : ℕ → Option (List Evidence))
    (hyp : Hypothesis) :
    ∃ r a, run cfg src hyp = some (r, a)
      ∧ r.convergenceReason ∈ stopReasons
      ∧ (cfg.budget = 0 →
          a ≤ 1 ∧ (r.convergenceReason = "budget_exceeded"
            ∨ r.convergenceReason = "confidence_threshold_reached"
            ∨ r.convergenceReason = "max_iterations_exceeded")) := by
  by_cases hb : cfg.budget = 0
  · obtain ⟨r, hrun, hreason⟩ := run_budget_zero cfg src hyp hb
    refine ⟨r, 0, hrun, ?_, fun _ => ⟨Nat.zero_le 1, hreason⟩⟩
    rcases hreason with h | h | h <;> simp [stopReasons, h]
  · obtain ⟨r, a, hrun, hreason⟩ :=
      runAux_terminates cfg src (cfg.maxIterations + 1) 0 hyp 0 0
        (by omega) (by omega)
    exact ⟨r, a, hrun, hreason, fun h => absurd h hb⟩

/-- Witness for C7 at a concrete configuration with budget 0, a concrete
evidence-source behaviour and a concrete hypothesis, discharging the
budget-zero hypothesis of the conjunct. -/
theorem C7_witness :
    ∃ r a, run { budget := 0 } (fun _ => none) defaultHypothesis = some (r, a)
      ∧ r.convergenceReason ∈ stopReasons
      ∧ a ≤ 1 ∧ (r.convergenceReason = "budget_exceeded"
            ∨ r.convergenceReason = "confidence_threshold_reached"
            ∨ r.convergenceReason = "max_iterations_exceeded") := by
  obtain ⟨r, a, hrun, hmem, himp⟩ :=
    C7_run_terminates { budget := 0 } (fun _ => none) defaultHypothesis
  obtain ⟨ha, hr⟩ := himp rfl
  exact ⟨r, a, hrun, hmem, ha, hr⟩

/-! C3: the confidence-recomputation formula of the loop. -/

lemma recomputeConfidence_eq_spec (s : CognitiveState) :
    recomputeConfidence s = spec_confidenceFormula s := by
  unfold recomputeConfidence spec_confidenceFormula
  by_cases hk : s.knowledge.isEmpty
  · have h : allEvidence s = [] := by
      rw [List.isEmpty_iff] at hk
      simp [allEvidence, hk]
    simp [hk, h]
  · simp [hk]

/-- C3 counterexample: after this successful query iteration the state's
own confidence attribute is 1/2 (the mean with a multiplicative
contradiction scaling computed by _update_confidence in state.py), while
the mean-plus-diversity-bonus-minus-penalty formula over the same state
gives 27/50; the claim equates the two, which fails here. -/
theorem C3_counterexample :
    ((successStep c3Hyp [c3Ev] 0).1).state.confidence
      ≠ spec_confidenceFormula ((successStep c3Hyp [c3Ev] 0).1).state :=
  of_decide_eq_true (by with_unfolding_all rfl)

/-- C3 amended: after every successful query iteration it is the
hypothesis's confidence attribute (assigned from _recompute_confidence in
interrogation_loop.py), not state.confidence, that equals the
evidence-mean plus min(0.2, 0.04 x distinct sources) minus
min(0.3, 0.05 x contradiction count), clamped to [0, 1], evaluated on the
state right after the new evidence is added (before this iteration's
contradiction detection extends the contradiction list). -/
theorem C3_hypothesis_confidence_formula (hyp : Hypothesis)
    (evs : List Evidence) (cost : ℚ) :
    ((successStep hyp evs cost).1).confidence
      = spec_confidenceFormula (addEvidenceList hyp.state hyp.description evs) := by
  unfold successStep
  dsimp only
  exact recomputeConfidence_eq_spec _

/-! C4: the deterministic next-query selection ladder. -/

/-- C4 counterexample: the claim says uncertainty High or Unknown yields
the alternative-view variant; on this state with uncertainty Unknown the
code compares only against High, falls through every later rule and
returns no query at all. -/
theorem C4_counterexample :
    selectNextQuery c4Hyp
      ≠ some ("alternative view " ++ c4Hyp.sourceStrategy.queryTemplate) :=
  of_decide_eq_true (by with_unfolding_all rfl)

/-- C4 amended: the selection ladder holds with High alone (not High or
Unknown) triggering the alternative-view variant: no evidence yet gives
the base template; else uncertainty exactly High gives the alternative
view variant; else a contradiction present gives a clarification query on
the first 50 characters of the most recent contradiction's first claim;
else confidence below 0.5 gives the detailed variant; otherwise no query
is returned and the loop stops with no_more_queries. -/
theorem C4_next_query_ladder (h : Hypothesis) :
    (h.state.knowledge = [] →
      selectNextQuery h = some h.sourceStrategy.queryTemplate)
    ∧ (h.state.knowledge ≠ [] → h.state.uncertainty = .level .HIGH →
        selectNextQuery h
          = some ("alternative view " ++ h.sourceStrategy.queryTemplate))
    ∧ (∀ c, h.state.knowledge ≠ [] → h.state.uncertainty.eqLevel .HIGH = false →
        h.state.contradictions.getLast? = some c →
        selectNextQuery h = some ("clarify " ++ strTake c.claim_a 50))
    ∧ (h.state.knowledge ≠ [] → h.state.uncertainty.eqLevel .HIGH = false →
        h.state.contradictions = [] → h.state.confidence < 1/2 →
        selectNextQuery h = some ("detailed " ++ h.sourceStrategy.queryTemplate))
    ∧ (h.state.knowledge ≠ [] → h.state.uncertainty.eqLevel .HIGH = false →
        h.state.contradictions = [] → ¬(h.state.confidence < 1/2) →
        selectNextQuery h = none) := by
  refine ⟨?_, ?_, ?_, ?_, ?_⟩
  · intro hk
    unfold selectNextQuery
    rw [if_pos (List.isEmpty_iff.mpr hk)]
  · intro hk hu
    unfold selectNextQuery
    rw [if_neg (by simpa using List.isEmpty_iff.not.mpr hk)]
    rw [if_pos (by rw [hu]; rfl)]
  · intro c hk hu hc
    unfold selectNextQuery
    rw [if_neg (by simpa using List.isEmpty_iff.not.mpr hk)]
    rw [if_neg (by simp [hu]), hc]
  · intro hk hu hc hconf
    unfold selectNextQuery
    rw [if_neg (by simpa using List.isEmpty_iff.not.mpr hk)]
    rw [if_neg (by simp [hu]), hc]
    dsimp only [List.getLast?]
    rw [if_pos hconf]
  · intro hk hu hc hconf
    unfold selectNextQuery
    rw [if_neg (by simpa using List.isEmpty_iff.not.mpr hk)]
    rw [if_neg (by simp [hu]), hc]
    dsimp only [List.getLast?]
    rw [if_neg hconf]

/-- Witness for C4 at concrete inputs: the counterexample hypothesis sits
in the final (stop) rule of the ladder, and emptying its knowledge gives
the base-template rule, discharging each hypothesis of those conjuncts. -/
theorem C4_witness :
    (c4Hyp.state.knowledge ≠ [] ∧ c4Hyp.state.uncertainty.eqLevel .HIGH = false
      ∧ c4Hyp.state.contradictions = [] ∧ ¬(c4Hyp.state.confidence < 1/2)
      ∧ selectNextQuery c4Hyp = none)
    ∧ ({ c4Hyp with state := initialState }.state.knowledge = []
      ∧ selectNextQuery { c4Hyp with state := initialState }
          = some { c4Hyp with state := initialState }.sourceStrategy.queryTemplate) :=
  ⟨⟨of_decide_eq_true (by with_unfolding_all rfl),
    of_decide_eq_true (by with_unfolding_all rfl),
    of_decide_eq_true (by with_unfolding_all rfl),
    of_decide_eq_true (by with_unfolding_all rfl),
    (C4_next_query_ladder c4Hyp).2.2.2.2
      (of_decide_eq_true (by with_unfolding_all rfl))
      (of_decide_eq_true (by with_unfolding_all rfl))
      (of_decide_eq_true (by with_unfolding_all rfl))
      (of_decide_eq_true (by with_unfolding_all rfl))⟩,
   ⟨rfl, (C4_next_query_ladder { c4Hyp with state := initialState }).1 rfl⟩⟩

/-! C5: should_continue_search. -/

/-- C5 counterexample: the claim says should_continue_search returns true
when no hypotheses remain active; on a non-empty list whose only
hypothesis is eliminated the code returns false. -/
theorem C5_counterexample :
    ¬ (shouldContinueSearch [c5Elim] (4/5) = true) :=
  of_decide_eq_true (by with_unfolding_all rfl)

lemma rankHypotheses_length (hyps : List Hypothesis) :
    (rankHypotheses hyps).length = (hyps.filter (fun h => !h.eliminated)).length := by
  unfold rankHypotheses
  exact List.length_insertionSort _ _

/-- C5 amended: should_continue_search returns true on an empty hypothesis
list; it returns false on a non-empty list with no active hypothesis; and
when active hypotheses exist it returns false exactly when the top-ranked
active hypothesis's confidence reaches the threshold. -/
theorem C5_should_continue_search :
    (∀ t, shouldContinueSearch [] t = true)
    ∧ (∀ (hs : List Hypothesis) t, hs ≠ [] →
        hs.filter (fun h => !h.eliminated) = [] →
        shouldContinueSearch hs t = false)
    ∧ (∀ (hs : List Hypothesis) t (a : Hypothesis) rest,
        hs.filter (fun h => !h.eliminated) = a :: rest →
        (shouldContinueSearch hs t = false ↔
          t ≤ ((selectBest (a :: rest) 1).headI).confidence)) := by
  refine ⟨fun t => rfl, ?_, ?_⟩
  · intro hs t hne hfil
    unfold shouldContinueSearch
    rw [if_neg (by simpa using List.isEmpty_iff.not.mpr hne)]
    dsimp only
    rw [if_pos (List.isEmpty_iff.mpr hfil)]
  · intro hs t a rest hfil
    have hne : hs ≠ [] := by
      intro h
      rw [h] at hfil
      exact List.cons_ne_nil a rest hfil.symm
    unfold shouldContinueSearch
    rw [if_neg (by simpa using List.isEmpty_iff.not.mpr hne)]
    dsimp only
    rw [hfil]
    rw [if_neg (by simp)]
    have hlen : 0 < (rankHypotheses (a :: rest)).length := by
      rw [rankHypotheses_length]
      have : (a :: rest).filter (fun h => !h.eliminated) = a :: rest := by
        apply List.filter_eq_self.mpr
        intro x hx
        have hxhs : x ∈ hs.filter (fun h => !h.eliminated) := by
          rw [hfil]; exact hx
        exact (List.mem_filter.mp hxhs).2
      rw [this]
      exact Nat.succ_pos rest.length
    obtain ⟨b, bs, hbs⟩ : ∃ b bs, rankHypotheses (a :: rest) = b :: bs := by
      cases hrk : rankHypotheses (a :: rest) with
      | nil => rw [hrk] at hlen; exact absurd hlen (by simp)
      | cons b bs => exact ⟨b, bs, rfl⟩
    unfold selectBest
    rw [hbs]
    dsimp only [List.take, List.headI]
    by_cases ht : t ≤ b.confidence
    · rw [if_pos ht]
      simp [ht]
    · rw [if_neg ht]
      simp [ht]

/-- Witness for C5 at concrete inputs: a singleton active list below the
threshold (third conjunct, continue searching) and a non-empty list with
no active member (second conjunct, stop), discharging each hypothesis. -/
theorem C5_witness :
    (([c5Act] : List Hypothesis).filter (fun h => !h.eliminated) = [c5Act]
      ∧ (shouldContinueSearch [c5Act] (4/5) = false ↔
          (4/5 : ℚ) ≤ ((selectBest [c5Act] 1).headI).confidence))
    ∧ (([c5Elim] : List Hypothesis) ≠ []
      ∧ ([c5Elim] : List Hypothesis).filter (fun h => !h.eliminated) = []
      ∧ shouldContinueSearch [c5Elim] (4/5) = false) :=
  ⟨⟨of_decide_eq_true (by with_unfolding_all rfl),
    C5_should_continue_search.2.2 [c5Act] (4/5) c5Act []
      (of_decide_eq_true (by with_unfolding_all rfl))⟩,
   ⟨of_decide_eq_true (by with_unfolding_all rfl),
    of_decide_eq_true (by with_unfolding_all rfl),
    C5_should_continue_search.2.1 [c5Elim] (4/5)
      (of_decide_eq_true (by with_unfolding_all rfl))
      (of_decide_eq_true (by with_unfolding_all rfl))⟩⟩

/-! C6: synthesis confidence interval and aggregate confidence. -/

lemma qmin_le_left (a b : ℚ) : qmin a b ≤ a := by
  unfold qmin; split <;> linarith

lemma qmin_le_right (a b : ℚ) : qmin a b ≤ b := by
  unfold qmin; split <;> linarith

lemma qmin_eq_or (a b : ℚ) : qmin a b = a ∨ qmin a b = b := by
  unfold qmin; split
  · exact Or.inl rfl
  · exact Or.inr rfl

lemma le_qmax_left (a b : ℚ) : a ≤ qmax a b := by
  unfold qmax; split <;> linarith

lemma le_qmax_right (a b : ℚ) : b ≤ qmax a b := by
  unfold qmax; split <;> linarith

lemma qmax_eq_or (a b : ℚ) : qmax a b = a ∨ qmax a b = b := by
  unfold qmax; split
  · exact Or.inl rfl
  · exact Or.inr rfl

lemma foldl_qmin_le_init : ∀ (l : List ℚ) (init : ℚ), l.foldl qmin init ≤ init := by
  intro l
  induction l with
  | nil => intro init; exact le_refl init
  | cons x rest ih =>
      intro init
      exact le_trans (ih (qmin init x)) (qmin_le_left init x)

lemma foldl_qmin_le_mem : ∀ (l : List ℚ) (init x : ℚ), x ∈ l →
    l.foldl qmin init ≤ x := by
  intro l
  induction l with
  | nil => intro init x hx; cases hx
  | cons y rest ih =>
      intro init x hx
      cases List.mem_cons.mp hx with
      | inl h =>
          subst h
          exact le_trans (foldl_qmin_le_init rest (qmin init x)) (qmin_le_right init x)
      | inr h => exact ih (qmin init y) x h

lemma foldl_qmin_eq_init_or_mem : ∀ (l : List ℚ) (init : ℚ),
    l.foldl qmin init = init ∨ l.foldl qmin init ∈ l := by
  intro l
  induction l with
  | nil => intro init; exact Or.inl rfl
  | cons y rest ih =>
      intro init
      cases ih (qmin init y) with
      | inl h =>
          cases qmin_eq_or init y with
          | inl h₂ => exact Or.inl (by rw [List.foldl_cons, h, h₂])
          | inr h₂ => exact Or.inr (by rw [List.foldl_cons, h, h₂]; exact List.mem_cons_self y rest)
      | inr h => exact Or.inr (List.mem_cons_of_mem y h)

lemma init_le_foldl_qmax : ∀ (l : List ℚ) (init : ℚ), init ≤ l.foldl qmax init := by
  intro l
  induction l with
  | nil => intro init; exact le_refl init
  | cons x rest ih =>
      intro init
      exact le_trans (le_qmax_left init x) (ih (qmax init x))

lemma mem_le_foldl_qmax : ∀ (l : List ℚ) (init x : ℚ), x ∈ l →
    x ≤ l.foldl qmax init := by
  intro l
  induction l with
  | nil => intro init x hx; cases hx
  | cons y rest ih =>
      intro init x hx
      cases List.mem_cons.mp hx with
      | inl h =>
          subst h
          exact le_trans (le_qmax_right init x) (init_le_foldl_qmax rest (qmax init x))
      | inr h => exact ih (qmax init y) x h

lemma foldl_qmax_eq_init_or_mem : ∀ (l : List ℚ) (init : ℚ),
    l.foldl qmax init = init ∨ l.foldl qmax init ∈ l := by
  intro l
  induction l with
  | nil => intro init; exact Or.inl rfl
  | cons y rest ih =>
      intro init
      cases ih (qmax init y) with
      | inl h =>
          cases qmax_eq_or init y with
          | inl h₂ => exact Or.inl (by rw [List.foldl_cons, h, h₂])
          | inr h₂ => exact Or.inr (by rw [List.foldl_cons, h, h₂]; exact List.mem_cons_self y rest)
      | inr h => exact Or.inr (List.mem_cons_of_mem y h)

/-- C6: the confidence interval is the literal (min, max) spread of the
surviving hypotheses' own confidences (attained and bounding); the
aggregate confidence is the weighted mean with weight
confidence x (evidence count / (cost + 1)); and the bound
min <= aggregate <= max is not guaranteed: a surviving hypothesis with
confidence 1/2 and no evidence yields interval (1/2, 1/2) but aggregate 0
(zero total weight falls back to 0). -/
theorem C6_interval_and_aggregate :
    (∀ hs : List Hypothesis, hs ≠ [] →
      (∃ h, h ∈ hs ∧ (calculateConfidenceInterval hs).1 = h.confidence)
      ∧ (∀ h, h ∈ hs → (calculateConfidenceInterval hs).1 ≤ h.confidence)
      ∧ (∃ h, h ∈ hs ∧ (calculateConfidenceInterval hs).2 = h.confidence)
      ∧ (∀ h, h ∈ hs → h.confidence ≤ (calculateConfidenceInterval hs).2))
    ∧ (∀ hs : List Hypothesis, hs ≠ [] → (hs.map hypWeight).sum ≠ 0 →
        aggregateConfidence hs
          = (hs.map (fun h => h.confidence * hypWeight h)).sum
              / (hs.map hypWeight).sum)
    ∧ ¬ ((calculateConfidenceInterval [c6Hyp]).1 ≤ aggregateConfidence [c6Hyp]) := by
  refine ⟨?_, ?_, of_decide_eq_true (by with_unfolding_all rfl)⟩
  · intro hs hne
    obtain ⟨a, rest, rfl⟩ := List.exists_cons_of_ne_nil hne
    have hint : calculateConfidenceInterval (a :: rest)
        = (listMin ((a :: rest).map Hypothesis.confidence),
           listMax ((a :: rest).map Hypothesis.confidence)) := by
      unfold calculateConfidenceInterval
      rw [if_neg (by simp)]
    rw [hint]
    dsimp only [List.map_cons, listMin, listMax]
    refine ⟨?_, ?_, ?_, ?_⟩
    · cases foldl_qmin_eq_init_or_mem (rest.map Hypothesis.confidence) a.confidence with
      | inl h => exact ⟨a, List.mem_cons_self a rest, h⟩
      | inr h =>
          obtain ⟨b, hb, hbc⟩ := List.mem_map.mp h
          exact ⟨b, List.mem_cons_of_mem a hb, hbc.symm⟩
    · intro h hmem
      cases List.mem_cons.mp hmem with
      | inl he => subst he; exact foldl_qmin_le_init _ _
      | inr he =>
          exact foldl_qmin_le_mem _ _ _ (List.mem_map_of_mem Hypothesis.confidence he)
    · cases foldl_qmax_eq_init_or_mem (rest.map Hypothesis.confidence) a.confidence with
      | inl h => exact ⟨a, List.mem_cons_self a rest, h⟩
      | inr h =>
          obtain ⟨b, hb, hbc⟩ := List.mem_map.mp h
          exact ⟨b, List.mem_cons_of_mem a hb, hbc.symm⟩
    · intro h hmem
      cases List.mem_cons.mp hmem with
      | inl he => subst he; exact init_le_foldl_qmax _ _
      | inr he =>
          exact mem_le_foldl_qmax _ _ _ (List.mem_map_of_mem Hypothesis.confidence he)
  · intro hs hne hw
    unfold aggregateConfidence
    rw [if_neg (by simpa using List.isEmpty_iff.not.mpr hne)]
    dsimp only
    rw [if_neg hw]

/-- Witness for C6 at a concrete survivor list with non-zero total weight,
discharging the non-empty-list, the membership and the non-zero-weight
hypotheses of the first two conjuncts. -/
theorem C6_witness :
    (([c6W] : List Hypothesis) ≠ []
      ∧ (∃ h, h ∈ [c6W] ∧ (calculateConfidenceInterval [c6W]).1 = h.confidence)
      ∧ c6W ∈ [c6W] ∧ (calculateConfidenceInterval [c6W]).1 ≤ c6W.confidence)
    ∧ (([c6W].map hypWeight).sum ≠ 0
      ∧ aggregateConfidence [c6W]
          = ([c6W].map (fun h => h.confidence * hypWeight h)).sum
              / ([c6W].map hypWeight).sum) :=
  ⟨⟨List.cons_ne_nil c6W [],
    (C6_interval_and_aggregate.1 [c6W] (List.cons_ne_nil c6W [])).1,
    List.mem_cons_self c6W [],
    (C6_interval_and_aggregate.1 [c6W] (List.cons_ne_nil c6W [])).2.1 c6W
      (List.mem_cons_self c6W [])⟩,
   ⟨of_decide_eq_true (by with_unfolding_all rfl),
    C6_interval_and_aggregate.2.1 [c6W] (List.cons_ne_nil c6W [])
      (of_decide_eq_true (by with_unfolding_all rfl))⟩⟩

/-! C8: ranking is monotonic in confidence. -/

lemma qmin_mono_right {a b : ℚ} (c : ℚ) (h : a ≤ b) : qmin c a ≤ qmin c b := by
  unfold qmin
  split <;> split <;> linarith

lemma score_lt_of_confidence_lt (h₁ h₂ : Hypothesis)
    (hstate : h₁.state = h₂.state) (hcost : h₁.cost = h₂.cost)
    (hconf : h₂.confidence < h₁.confidence) :
    computeHypothesisScore h₂ < computeHypothesisScore h₁ := by
  unfold computeHypothesisScore
  rw [hstate, hcost]
  dsimp only
  have hcterm :
      (if 0 < h₂.cost then qmin 1 (h₂.confidence / (h₂.cost + 1/10)) * (1/5) else 1/5)
        ≤ (if 0 < h₂.cost then qmin 1 (h₁.confidence / (h₂.cost + 1/10)) * (1/5) else 1/5) := by
    by_cases hc : 0 < h₂.cost
    · rw [if_pos hc, if_pos hc]
      have hk : (0 : ℚ) < h₂.cost + 1/10 := by linarith
      have hdiv : h₂.confidence / (h₂.cost + 1/10) ≤ h₁.confidence / (h₂.cost + 1/10) :=
        (div_le_div_iff_of_pos_right hk).mpr hconf.le
      have := qmin_mono_right 1 hdiv
      linarith
    · rw [if_neg hc, if_neg hc]
  have hcf : h₂.confidence * (2/5) < h₁.confidence * (2/5) := by linarith
  linarith

/-- C8: for two non-eliminated hypotheses that differ only in confidence
(same state and same cost), the one with the strictly higher confidence
always appears strictly before the other in the ranking returned by
rank_hypotheses, for any input list. -/
theorem C8_rank_monotonic (l : List Hypothesis) (h₁ h₂ : Hypothesis)
    (hstate : h₁.state = h₂.state) (hcost : h₁.cost = h₂.cost)
    (_helim₁ : h₁.eliminated = false) (_helim₂ : h₂.eliminated = false)
    (hconf : h₂.confidence < h₁.confidence) :
    ∀ i j, (rankHypotheses l).get? i = some h₁ →
      (rankHypotheses l).get? j = some h₂ → i < j := by
  intro i j hi hj
  by_contra hnot
  push_neg at hnot
  rcases Nat.lt_or_ge j i with hji | hij
  · have hsorted : (rankHypotheses l).Pairwise rankRel :=
      List.sorted_insertionSort rankRel _
    obtain ⟨hib, hig⟩ := List.get?_eq_some.mp hi
    obtain ⟨hjb, hjg⟩ := List.get?_eq_some.mp hj
    have hrel := List.pairwise_iff_get.mp hsorted ⟨j, hjb⟩ ⟨i, hib⟩ hji
    rw [hig, hjg] at hrel
    have hlt := score_lt_of_confidence_lt h₁ h₂ hstate hcost hconf
    exact absurd hrel (not_le.mpr hlt)
  · have heq : i = j := le_antisymm hij hnot
    subst heq
    rw [hi] at hj
    have : h₁ = h₂ := Option.some.inj hj
    rw [this] at hconf
    exact lt_irrefl _ hconf

/-- Witness for C8 on a concrete two-element list (lower confidence listed
first): ranking puts the higher-confidence hypothesis at index 0 and the
lower one at index 1, and the theorem applied there yields 0 < 1. -/
theorem C8_witness :
    (c8High.state = c8Low.state ∧ c8High.cost = c8Low.cost
      ∧ c8High.eliminated = false ∧ c8Low.eliminated = false
      ∧ c8Low.confidence < c8High.confidence)
    ∧ (rankHypotheses [c8Low, c8High]).get? 0 = some c8High
    ∧ (rankHypotheses [c8Low, c8High]).get? 1 = some c8Low
    ∧ 0 < 1 :=
  ⟨⟨rfl, rfl, rfl, rfl, of_decide_eq_true (by with_unfolding_all rfl)⟩,
   of_decide_eq_true (by with_unfolding_all rfl),
   of_decide_eq_true (by with_unfolding_all rfl),
   C8_rank_monotonic [c8Low, c8High] c8High c8Low rfl rfl rfl rfl
     (of_decide_eq_true (by with_unfolding_all rfl)) 0 1
     (of_decide_eq_true (by with_unfolding_all rfl))
     (of_decide_eq_true (by with_unfolding_all rfl))⟩

/-! C1: fork aliasing, evaluated in the reference-semantics model. -/

/-- C1: fork copies the knowledge dict shallowly, so add_evidence on the
fork for a topic that already exists appends to the evidence list shared
with the original: the original's observed evidence count for that topic
goes from 1 to 2 (the spec says it must stay 1), while the original's
contradiction list and source set, which fork copies by value, are
untouched by construction. -/
theorem C1_fork_add_mutates_original :
    refEvidenceCount c1Setup.1 c1Setup.2 "topic" = 1
    ∧ refEvidenceCount c1AfterForkAdd.1 c1Setup.2 "topic" = 2
    ∧ c1Setup.2.contradictions = []
    ∧ c1Setup.2.sourcesAccessed = ["source"] :=
  ⟨of_decide_eq_true (by with_unfolding_all rfl),
   of_decide_eq_true (by with_unfolding_all rfl),
   of_decide_eq_true (by with_unfolding_all rfl),
   of_decide_eq_true (by with_unfolding_all rfl)⟩

/-! C2: elimination of a generator-produced hypothesis raises. -/

/-- C2: a generator-produced hypothesis that survives criteria 1 to 5
reaches the state-quality criterion, which evaluates the value attribute
of the float stored in state.uncertainty: _should_eliminate raises
AttributeError and eliminate_weak propagates it (and execute, which calls
eliminate_weak with no surrounding handler, propagates it to the caller
instead of returning a confidence-0 decision artifact). -/
theorem C2_eliminate_weak_raises :
    shouldEliminate defaultCriteria c2Hyp none = .error "AttributeError"
    ∧ eliminateWeak defaultCriteria [c2Hyp] none = .error "AttributeError" :=
  ⟨by with_unfolding_all rfl, by with_unfolding_all rfl⟩

end Velocity
